import Mathlib

/-!
Verification development for the article search pipeline
(milvus_insert.py and milvus_search.py).

Queries are modelled as lists of characters, timestamps and dates as
integers counting days, vectors as lists of rationals.  External
collaborators (the sentence-transformer encoder, the dateparser library,
the Milvus connection and search outcome, the MySQL table contents) are
parameters of the modelled functions, so every definition below is a
shallow embedding of the corresponding Python function over explicit
inputs.
-/

/-! ## Character and substring utilities (Python `str.lower`, `in`, `re`) -/

/-- Model of Python `str.lower()` on a list of characters. -/
def toLowerL (s : List Char) : List Char := s.map Char.toLower

/-- `leadsWith pat s` holds when `pat` is an initial segment of `s`
(character-for-character equality). -/
def leadsWith : List Char → List Char → Bool
  | [], _ => true
  | _ :: _, [] => false
  | p :: ps, c :: cs => p == c && leadsWith ps cs

/-- Model of Python substring containment `pat in s`: some suffix of `s`
starts with `pat`. -/
def containsSub (pat : List Char) : List Char → Bool
  | [] => leadsWith pat []
  | c :: cs => leadsWith pat (c :: cs) || containsSub pat cs

/-- Model of the regex class `\s` (ASCII whitespace as Python matches it). -/
def isPyWs (c : Char) : Bool :=
  c == ' ' || c == '\t' || c == '\n' || c == '\r' ||
    c.toNat == 11 || c.toNat == 12

/-- Case-insensitive keyword match at the head of the input (the regex runs
with `re.IGNORECASE`); returns the rest of the input on success. -/
def matchKwCI : List Char → List Char → Option (List Char)
  | [], s => some s
  | _ :: _, [] => none
  | k :: ks, c :: cs =>
      if c.toLower == k.toLower then matchKwCI ks cs else none

/-- The leading run of decimal digits of the input (as digit values) and
the remaining input; models the greedy `\d+`. -/
def takeDigitsL : List Char → List Nat × List Char
  | [] => ([], [])
  | c :: cs =>
      if c.isDigit then
        let r := takeDigitsL cs
        ((c.toNat - 48) :: r.1, r.2)
      else ([], c :: cs)

/-- The number a run of decimal digits denotes. -/
def digitsToNat (ds : List Nat) : Nat := ds.foldl (fun acc d => acc * 10 + d) 0

/-- The three duration units of the regex alternation `(days|weeks|months)`. -/
inductive TUnit where
  | days
  | weeks
  | months
deriving DecidableEq

/-- Which unit keyword, if any, starts the input (case-insensitively).  The
alternatives begin with distinct letters, so the alternation order of the
regex cannot matter here. -/
def matchUnit (s : List Char) : Option TUnit :=
  if (matchKwCI "days".data s).isSome then some TUnit.days
  else if (matchKwCI "weeks".data s).isSome then some TUnit.weeks
  else if (matchKwCI "months".data s).isSome then some TUnit.months
  else none

/-- A match of the pattern `(last|past)\s(\d+)\s(days|weeks|months)` starting
exactly at the head of the input, returning groups 2 and 3 (the number and
the unit).  `\d+` is greedy and digits are disjoint from `\s`, so taking the
maximal digit run is faithful to the regex engine. -/
def matchAt (s : List Char) : Option (Nat × TUnit) :=
  match (match matchKwCI "last".data s with
         | some r => some r
         | none => matchKwCI "past".data s) with
  | none => none
  | some r1 =>
      match r1 with
      | [] => none
      | c :: rest =>
          if isPyWs c then
            match takeDigitsL rest with
            | ([], _) => none
            | (d :: ds, rest2) =>
                match rest2 with
                | [] => none
                | c2 :: rest3 =>
                    if isPyWs c2 then
                      (matchUnit rest3).map (fun u => (digitsToNat (d :: ds), u))
                    else none
          else none

/-- Model of `re.search` for the pattern above: the match at the leftmost
position where one exists, scanning start positions left to right. -/
def findPattern : List Char → Option (Nat × TUnit)
  | [] => matchAt []
  | c :: rest =>
      match matchAt (c :: rest) with
      | some r => some r
      | none => findPattern rest

/-! ## Date-range extraction (milvus_search.py, parse_date_filter) -/

/-- Model of `parse_date_filter` (milvus_search.py lines 88-115).  `dp` is
the external dateparser library (`dateparser.parse` followed by `.date()`),
`now` the current date as produced by `datetime.now()`, and `query` the raw
query text.  The returned pair is `(start_date, end_date)`. -/
def parse_date_filter (dp : List Char → Option Int) (now : Int)
    (query : List Char) : Option (Int × Int) :=
  if containsSub "last week".data (toLowerL query) then
    some (now - 7, now)
  else if containsSub "last month".data (toLowerL query) then
    some (now - 30, now)
  else if containsSub "last".data (toLowerL query)
      || containsSub "past".data (toLowerL query) then
    match findPattern query with
    | some (n, TUnit.days) => some (now - (n : Int), now)
    | some (n, TUnit.weeks) => some (now - 7 * (n : Int), now)
    | some (n, TUnit.months) => some (now - 30 * (n : Int), now)
    | none => none
  else
    match dp query with
    | some d => some (d, now)
    | none => none

/-! ## Relational store model (MySQL tables and the fetch query) -/

/-- A row of the `articles` table. -/
structure ArticleRec where
  id : Int
  title : String
  author : Option String
  publication_date : Option Int
  abstract : String
deriving DecidableEq

/-- A row of the `article_summaries` table. -/
structure SummaryRec where
  article_id : Int
  summary : String
  keywords : Option String
deriving DecidableEq

/-- A row of the result set of the SELECT in
`fetch_filtered_articles_by_ids`: id, title, author, publication_date,
abstract from `articles` and keywords from the LEFT JOIN. -/
structure Row where
  id : Int
  title : String
  author : Option String
  publication_date : Option Int
  abstract : String
  keywords : Option String
deriving DecidableEq

/-- The relational database state: both tables in storage order.  A cursor
without an ORDER BY returns rows in this order, which is in particular not
the order of the id list interpolated into the IN clause. -/
structure DB where
  articles : List ArticleRec
  summaries : List SummaryRec
deriving DecidableEq

/-- The result row built from an article row and an optional keywords
value. -/
def mkRow (a : ArticleRec) (kw : Option String) : Row :=
  ⟨a.id, a.title, a.author, a.publication_date, a.abstract, kw⟩

/-- Model of `articles LEFT JOIN article_summaries ON articles.id =
article_summaries.article_id`: every article row in table order, paired
with each matching summary row, or with a null keywords value when none
matches. -/
def leftJoinRows : List ArticleRec → List SummaryRec → List Row
  | [], _ => []
  | a :: as, sums =>
      (match sums.filter (fun s => s.article_id == a.id) with
       | [] => [mkRow a none]
       | ms => ms.map (fun s => mkRow a s.keywords)) ++ leftJoinRows as sums

/-- Model of the optional `publication_date BETWEEN start AND end` clause:
inclusive on both ends, and false on a NULL publication_date (SQL NULL
comparisons are not true), while an absent date range constrains nothing. -/
def pub_in_range (date_range : Option (Int × Int)) (pub : Option Int) : Bool :=
  match date_range with
  | none => true
  | some (s, e) =>
      match pub with
      | none => false
      | some d => decide (s ≤ d) && decide (d ≤ e)

/-- Model of `fetch_filtered_articles_by_ids` (milvus_search.py lines
118-144): an empty id list returns early; otherwise the joined rows whose
id is in the list and whose publication_date passes the optional BETWEEN
clause, in the row order of the relational store. -/
def fetch_filtered_articles_by_ids (db : DB) (ids : List Int)
    (date_range : Option (Int × Int)) : List Row :=
  if ids.isEmpty then []
  else
    (leftJoinRows db.articles db.summaries).filter
      (fun r => ids.contains r.id && pub_in_range date_range r.publication_date)

/-! ## Query pipeline (milvus_search.py, search_articles) -/

/-- The two exceptions `connect_to_milvus` in milvus_search.py can raise:
the ValueError for a missing collection and the re-raised load failure. -/
inductive ConnErr where
  | collectionMissing
  | loadFailed
deriving DecidableEq

/-- Model of `connect_to_milvus` (milvus_search.py lines 12-36): raises when
the collection does not exist, raises when loading it fails, succeeds
otherwise. -/
def connect_to_milvus_search (hasCollection loadOk : Bool) : Except ConnErr Unit :=
  match hasCollection with
  | false => Except.error ConnErr.collectionMissing
  | true =>
      match loadOk with
      | false => Except.error ConnErr.loadFailed
      | true => Except.ok ()

/-- Model of `search_articles` (milvus_search.py lines 147-174).
`searchOutcome` is the outcome of `collection.search` on the embedded
query: either the ranked id list Milvus returns or the exception it
raises.  Only the search call itself sits inside the try/except (which
returns an empty list); the connection step precedes it unguarded, so its
exceptions propagate to the caller.  The fetched rows are returned exactly
as the relational fetch produced them. -/
def search_articles (hasCollection loadOk : Bool)
    (searchOutcome : Except String (List Int)) (db : DB)
    (dp : List Char → Option Int) (now : Int) (query : List Char) :
    Except ConnErr (List Row) :=
  match connect_to_milvus_search hasCollection loadOk with
  | Except.error e => Except.error e
  | Except.ok _ =>
      match searchOutcome with
      | Except.error _ => Except.ok []
      | Except.ok ids =>
          Except.ok (fetch_filtered_articles_by_ids db ids
            (parse_date_filter dp now query))

/-! ## Fusion indexing (milvus_insert.py) -/

/-- Elementwise scaling of a vector by a scalar (numpy `w * v`). -/
def vscale (c : ℚ) (v : List ℚ) : List ℚ := v.map (fun x => c * x)

/-- Elementwise addition of two vectors (numpy `u + v`). -/
def vadd (u v : List ℚ) : List ℚ := List.zipWith (fun x y => x + y) u v

/-- Elementwise combination of three vectors, used to state the fusion
contract independently of the nested numpy operations. -/
def zipW3 (f : ℚ → ℚ → ℚ → ℚ) : List ℚ → List ℚ → List ℚ → List ℚ
  | x :: xs, y :: ys, z :: zs => f x y z :: zipW3 f xs ys zs
  | _, _, _ => []

/-- The fixed fusion weights of `insert_weighted_embeddings`
(milvus_insert.py line 104). -/
def weights : List ℚ := [0.5, 0.3, 0.2]

/-- Model of `combine_embeddings` (milvus_insert.py lines 84-90): the
weighted elementwise sum of the three field vectors, with no further
normalization. -/
def combine_embeddings (t a s : List ℚ) (w : List ℚ) : List ℚ :=
  vadd (vadd (vscale (w.getD 0 0) t) (vscale (w.getD 1 0) a))
    (vscale (w.getD 2 0) s)

/-- Model of `summaries.get(article_id, "")`: the summary stored for the
id, or the empty string. -/
def lookupSummary (summaries : List (Int × String)) (k : Int) : String :=
  match summaries.find? (fun p => p.1 == k) with
  | some p => p.2
  | none => ""

/-- The three per-field encoder calls and the fusion for one article row
`(id, title, abstract)`, in source evaluation order; the first encoder
exception propagates.  `encode` is the external sentence-transformer
(already L2-normalizing its output). -/
def embed_article (encode : String → Except String (List ℚ))
    (summaries : List (Int × String)) (a : Int × String × String) :
    Except String (List ℚ) :=
  match encode a.2.1 with
  | Except.error e => Except.error e
  | Except.ok t =>
      match encode a.2.2 with
      | Except.error e => Except.error e
      | Except.ok ab =>
          match encode (lookupSummary summaries a.1) with
          | Except.error e => Except.error e
          | Except.ok s => Except.ok (combine_embeddings t ab s weights)

/-- Model of the embedding loop of `insert_weighted_embeddings`
(milvus_insert.py lines 93-123): the parallel lists `embeddings` and `ids`
built over the batch in order.  The loop body has no exception handler, so
the first encoder fault aborts the whole call before anything is
inserted. -/
def insert_weighted_embeddings (encode : String → Except String (List ℚ))
    (articles : List (Int × String × String))
    (summaries : List (Int × String)) :
    Except String (List (List ℚ) × List Int) :=
  match articles with
  | [] => Except.ok ([], [])
  | a :: rest =>
      match embed_article encode summaries a with
      | Except.error e => Except.error e
      | Except.ok v =>
          match insert_weighted_embeddings encode rest summaries with
          | Except.error e => Except.error e
          | Except.ok r => Except.ok (v :: r.1, a.1 :: r.2)

/-- Whether an exceptional computation completed without raising. -/
def exceptOk {ε α : Type} : Except ε α → Bool
  | Except.ok _ => true
  | Except.error _ => false

/-- Milvus `Collection.insert` (milvus_insert.py line 122) appends the
given rows to the collection; it does not deduplicate on the primary key
(upsert is a distinct client call the source never makes). -/
def milvus_insert_rows (store rows : List (Int × List ℚ)) :
    List (Int × List ℚ) :=
  store ++ rows

/-- One run of the indexing pipeline against a vector store state: embed
the batch, then hand the parallel lists to `collection.insert`.  On an
encoder fault the insert is never reached and the store is unchanged. -/
def run_index (encode : String → Except String (List ℚ))
    (articles : List (Int × String × String))
    (summaries : List (Int × String)) (store : List (Int × List ℚ)) :
    Except String (List (Int × List ℚ)) :=
  match insert_weighted_embeddings encode articles summaries with
  | Except.error e => Except.error e
  | Except.ok r => Except.ok (milvus_insert_rows store (r.2.zip r.1))

/-- How many rows of the vector store carry the given document id. -/
def countKey (k : Int) (store : List (Int × List ℚ)) : Nat :=
  store.countP (fun row => row.1 == k)

/-! ## Collection schema lifecycle (milvus_insert.py, connect_to_milvus) -/

/-- The two Milvus field data types the source declares. -/
inductive DTypeM where
  | floatVector
  | int64
deriving DecidableEq

/-- A Milvus field schema: name, data type, the `dim` parameter when
declared, and the primary-key flag. -/
structure FieldM where
  name : String
  dtype : DTypeM
  dim : Option Nat
  is_primary : Bool
deriving DecidableEq

/-- The schema built at milvus_insert.py lines 52-56: a float vector field
`embeddings` of dimension 768 and an int64 primary-key field `id`. -/
def schemaFields : List FieldM :=
  [⟨"embeddings", DTypeM.floatVector, some 768, false⟩,
   ⟨"id", DTypeM.int64, none, true⟩]

/-- The field-validation loop of `connect_to_milvus` (milvus_insert.py
lines 63-73): scan the existing fields in order; at the first field named
`embeddings` whose `dim` parameter differs from 768, stop with a mismatch
(drop and recreate, returning immediately); a field named `embeddings`
without a `dim` parameter raises a KeyError; otherwise no mismatch. -/
def scanFields : List FieldM → Except String Bool
  | [] => Except.ok false
  | f :: rest =>
      if f.name == "embeddings" then
        match f.dim with
        | none => Except.error "KeyError: dim"
        | some d => if d ≠ 768 then Except.ok true else scanFields rest
      else scanFields rest

/-- The observable outcome of `connect_to_milvus` in milvus_insert.py: the
field schema of the collection handed back, and whether the existing
collection was dropped (losing all stored vectors). -/
structure ConnOutcome where
  fields : List FieldM
  dropped : Bool
deriving DecidableEq

/-- Model of `connect_to_milvus` (milvus_insert.py lines 38-81).
`existing` is the field schema of the collection when one with the
configured name exists, `none` otherwise. -/
def connect_to_milvus (existing : Option (List FieldM)) :
    Except String ConnOutcome :=
  match existing with
  | none => Except.ok ⟨schemaFields, false⟩
  | some fs =>
      match scanFields fs with
      | Except.error e => Except.error e
      | Except.ok true => Except.ok ⟨schemaFields, true⟩
      | Except.ok false => Except.ok ⟨fs, false⟩

/-! ## Theorems -/

/-- A dateparser that recovers no date from any text. -/
def dpNone : List Char → Option Int := fun _ => none

/-- A dateparser that recovers day 100 from any text (in particular from
"last tuesday", which the real library parses). -/
def dpTue : List Char → Option Int := fun _ => some 100

/-- C8: rule precedence in parse_date_filter.  Any query containing
"last week" (case-insensitively) yields [now-7, now] no matter what else it
contains; the query "past 2 months" yields [now-60, now] (months are 30-day
blocks); and a query with none of the temporal keywords and no parsable
date yields no range. -/
theorem C8_precedence (dp : List Char → Option Int) (now : Int)
    (q : List Char) :
    (containsSub "last week".data (toLowerL q) = true →
      parse_date_filter dp now q = some (now - 7, now)) ∧
    parse_date_filter dp now "past 2 months".data = some (now - 60, now) ∧
    (containsSub "last week".data (toLowerL q) = false →
      containsSub "last month".data (toLowerL q) = false →
      containsSub "last".data (toLowerL q) = false →
      containsSub "past".data (toLowerL q) = false →
      dp q = none →
      parse_date_filter dp now q = none) := by
  refine ⟨fun h => ?_, ?_, fun h1 h2 h3 h4 h5 => ?_⟩
  · simp [parse_date_filter, h]
  · rfl
  · simp [parse_date_filter, h1, h2, h3, h4, h5]

/-- Witness for C8 at concrete inputs: "results from last week" takes the
first rule, "past 2 months" the numeric rule, and "hello world" (with a
dateparser that finds nothing) yields null. -/
theorem C8_precedence_witness :
    parse_date_filter dpNone 0 ("results from last week".data) = some (-7, 0) ∧
    parse_date_filter dpNone 0 ("past 2 months".data) = some (-60, 0) ∧
    parse_date_filter dpNone 0 ("hello world".data) = none := by
  refine ⟨?_, ?_, ?_⟩
  · exact (C8_precedence dpNone 0 ("results from last week".data)).1 (by decide)
  · exact (C8_precedence dpNone 0 ("results from last week".data)).2.1
  · exact (C8_precedence dpNone 0 ("hello world".data)).2.2
      (by decide) (by decide) (by decide) (by decide) rfl

/-- C10: every date range parse_date_filter extracts ends exactly at the
current date, for every dateparser behaviour, every value of now and every
query; a window lying strictly in the past cannot be expressed. -/
theorem C10_range_end_is_now (dp : List Char → Option Int) (now : Int)
    (q : List Char) (s e : Int)
    (h : parse_date_filter dp now q = some (s, e)) : e = now := by
  unfold parse_date_filter at h
  repeat' split at h
  all_goals
    first
      | exact Option.noConfusion h
      | · simp only [Option.some.injEq, Prod.mk.injEq] at h
          exact h.2.symm

/-- Witness for C10: the range extracted for "last week" at now = 0 ends
at 0. -/
theorem C10_range_end_is_now_witness :
    parse_date_filter dpNone 0 ("last week".data) = some (-7, 0) ∧
    (0 : Int) = 0 :=
  ⟨by decide, C10_range_end_is_now dpNone 0 ("last week".data) (-7) 0 (by decide)⟩

/-- Counterexample to C2 as stated: the query "last tuesday" contains
neither "last week" nor "last month" and does not match the numeric
pattern, so rules 1-3 produce no range; the free-form parser (modelled as
dpTue) recovers a date from it; yet parse_date_filter returns null rather
than the parsed range, because the bare word "last" diverts the query into
the numeric-pattern branch, which has no fallback to free-form parsing. -/
theorem C2_counterexample :
    containsSub "last week".data (toLowerL "last tuesday".data) = false ∧
    containsSub "last month".data (toLowerL "last tuesday".data) = false ∧
    findPattern ("last tuesday".data) = none ∧
    dpTue ("last tuesday".data) = some 100 ∧
    parse_date_filter dpTue 0 ("last tuesday".data) = none ∧
    parse_date_filter dpTue 0 ("last tuesday".data) ≠ some (100, 0) := by
  refine ⟨by decide, by decide, by decide, rfl, by decide, by decide⟩

/-- C2 amended: when rules 1-3 produce no range, free-form parsing of the
whole query is attempted only if the query contains neither the word
"last" nor the word "past" (case-insensitively); a query containing either
word without the numeric pattern yields null, and free-form parsing is
never reached for it. -/
theorem C2_free_form_only_without_keywords (dp : List Char → Option Int)
    (now : Int) (q : List Char)
    (h1 : containsSub "last week".data (toLowerL q) = false)
    (h2 : containsSub "last month".data (toLowerL q) = false)
    (h3 : findPattern q = none) :
    parse_date_filter dp now q =
      if containsSub "last".data (toLowerL q)
          || containsSub "past".data (toLowerL q) then none
      else
        match dp q with
        | some d => some (d, now)
        | none => none := by
  unfold parse_date_filter
  rw [h1, h2]
  simp only [Bool.false_eq_true, if_false]
  split
  · rw [h3]
  · rfl

/-- Witness for C2's amended statement at the query "last tuesday": rules
1-3 do not fire, and the result is null because the query contains the
word "last". -/
theorem C2_free_form_witness :
    parse_date_filter dpTue 0 ("last tuesday".data) =
      if containsSub "last".data (toLowerL "last tuesday".data)
          || containsSub "past".data (toLowerL "last tuesday".data) then none
      else
        match dpTue ("last tuesday".data) with
        | some d => some (d, (0 : Int))
        | none => none :=
  C2_free_form_only_without_keywords dpTue 0 ("last tuesday".data)
    (by decide) (by decide) (by decide)

/-- A non-empty list contains no element when it is empty: helper relating
the IN-clause membership test to the early-return guard. -/
theorem contains_not_nil {l : List Int} {x : Int}
    (h : l.contains x = true) : l.isEmpty = false := by
  cases l with
  | nil => simp [List.contains] at h
  | cons a as => rfl

/-- C9: the relational fetch with an active date range returns only rows
whose id is in the candidate set and whose publication_date is non-null
and inclusively inside the range; every joined row meeting those
conditions is returned; and with no date range every joined row whose id
is in the candidate set is returned, null publication_date included. -/
theorem C9_date_filter (db : DB) (ids : List Int) (r : Row)
    (s e d : Int) :
    (r ∈ fetch_filtered_articles_by_ids db ids (some (s, e)) →
      ids.contains r.id = true ∧
      ∃ d2, r.publication_date = some d2 ∧ s ≤ d2 ∧ d2 ≤ e) ∧
    (r ∈ leftJoinRows db.articles db.summaries →
      ids.contains r.id = true →
      r.publication_date = some d → s ≤ d → d ≤ e →
      r ∈ fetch_filtered_articles_by_ids db ids (some (s, e))) ∧
    (r ∈ leftJoinRows db.articles db.summaries →
      ids.contains r.id = true →
      r ∈ fetch_filtered_articles_by_ids db ids none) := by
  refine ⟨fun h => ?_, fun hj hc hp hs he => ?_, fun hj hc => ?_⟩
  · unfold fetch_filtered_articles_by_ids at h
    split at h
    · exact absurd h (List.not_mem_nil r)
    · rw [List.mem_filter, Bool.and_eq_true] at h
      refine ⟨h.2.1, ?_⟩
      have hpr := h.2.2
      cases hpd : r.publication_date with
      | none => simp [pub_in_range, hpd] at hpr
      | some d2 =>
          simp only [pub_in_range, hpd, Bool.and_eq_true,
            decide_eq_true_eq] at hpr
          exact ⟨d2, rfl, hpr.1, hpr.2⟩
  · unfold fetch_filtered_articles_by_ids
    rw [contains_not_nil hc]
    simp only [Bool.false_eq_true, if_false, List.mem_filter]
    refine ⟨hj, ?_⟩
    rw [Bool.and_eq_true]
    exact ⟨hc, by simp [pub_in_range, hp, hs, he]⟩
  · unfold fetch_filtered_articles_by_ids
    rw [contains_not_nil hc]
    simp only [Bool.false_eq_true, if_false, List.mem_filter]
    refine ⟨hj, ?_⟩
    rw [Bool.and_eq_true]
    exact ⟨hc, rfl⟩

/-- The relational state for the C9 witness: one article with a
publication date and one without. -/
def db9 : DB :=
  ⟨[⟨1, "t1", none, some 5, "a1"⟩, ⟨2, "t2", none, none, "a2"⟩], []⟩

/-- The joined row of article 1 of db9. -/
def row9a : Row := ⟨1, "t1", none, some 5, "a1", none⟩

/-- The joined row of article 2 of db9 (null publication_date). -/
def row9b : Row := ⟨2, "t2", none, none, "a2", none⟩

/-- Witness for C9: with no date range the null-dated row is returned;
with the range [0, 10] the dated row is returned. -/
theorem C9_date_filter_witness :
    row9b ∈ fetch_filtered_articles_by_ids db9 [1, 2] none ∧
    row9a ∈ fetch_filtered_articles_by_ids db9 [1, 2] (some (0, 10)) := by
  constructor
  · exact (C9_date_filter db9 [1, 2] row9b 0 10 0).2.2 (by decide) (by decide)
  · exact (C9_date_filter db9 [1, 2] row9a 0 10 5).2.1 (by decide) (by decide)
      rfl (by decide) (by decide)

/-- The relational state for the C1 failing input: the articles table
stores the row with id 2 before the row with id 5. -/
def db1 : DB :=
  ⟨[⟨2, "t2", none, none, "a2"⟩, ⟨5, "t5", none, none, "a5"⟩], []⟩

/-- The joined row of article 2 of db1. -/
def row1a : Row := ⟨2, "t2", none, none, "a2", none⟩

/-- The joined row of article 5 of db1. -/
def row1b : Row := ⟨5, "t5", none, none, "a5", none⟩

/-- C1 fails on the code: the vector search returns the id list [5, 2] in
rank order, both ids survive (no date filter is implied by "hello" and
both exist relationally), yet search_articles returns the rows in the
relational fetch's own order [id 2, id 5] — the fetch order is exactly
what is returned, and the vector rank order [id 5, id 2] is not
restored. -/
theorem C1_rank_order_not_restored :
    search_articles true true (Except.ok [5, 2]) db1 dpNone 0
        ("hello".data) = Except.ok [row1a, row1b] ∧
    row1a.id = 2 ∧ row1b.id = 5 ∧
    ([row1a, row1b] : List Row) ≠ [row1b, row1a] :=
  ⟨rfl, rfl, rfl, by decide⟩

/-- Counterexample to C7 as stated: with the collection missing, Search
raises the ValueError from connect_to_milvus to the caller instead of
returning an empty result list; the connection step is outside the
try/except that guards only the search call. -/
theorem C7_counterexample :
    search_articles false true (Except.ok []) db1 dpNone 0 [] =
      Except.error ConnErr.collectionMissing ∧
    search_articles false true (Except.ok []) db1 dpNone 0 [] ≠
      Except.ok [] :=
  ⟨rfl, fun h => Except.noConfusion h⟩

/-- C7 amended: only a fault raised by the vector search call itself is
caught and converted to an empty result; a missing collection or a load
failure raises to the caller (fatal), for every relational state, query
and dateparser behaviour. -/
theorem C7_search_fault_only (loadOk : Bool)
    (so : Except String (List Int)) (db : DB)
    (dp : List Char → Option Int) (now : Int) (q : List Char)
    (msg : String) :
    search_articles false loadOk so db dp now q =
      Except.error ConnErr.collectionMissing ∧
    search_articles true false so db dp now q =
      Except.error ConnErr.loadFailed ∧
    search_articles true true (Except.error msg) db dp now q =
      Except.ok [] :=
  ⟨rfl, rfl, rfl⟩

/-- The nested elementwise numpy operations of combine_embeddings equal a
single three-way elementwise weighted sum. -/
theorem combine_embeddings_eq_zipW3 (t a s : List ℚ) :
    combine_embeddings t a s weights =
      zipW3 (fun x y z => (0.5 : ℚ) * x + (0.3 : ℚ) * y + (0.2 : ℚ) * z)
        t a s := by
  have h : ∀ (w0 w1 w2 : ℚ) (t : List ℚ), ∀ (a s : List ℚ),
      vadd (vadd (vscale w0 t) (vscale w1 a)) (vscale w2 s) =
        zipW3 (fun x y z => w0 * x + w1 * y + w2 * z) t a s := by
    intro w0 w1 w2 t
    induction t with
    | nil => intro a s; cases a <;> cases s <;> rfl
    | cons x xs ih =>
        intro a s
        cases a with
        | nil => cases s <;> rfl
        | cons y ys =>
            cases s with
            | nil => rfl
            | cons z zs =>
                simp only [vadd, vscale, List.map_cons,
                  List.zipWith_cons_cons, zipW3]
                rw [show List.zipWith (fun x y => x + y)
                    (List.zipWith (fun x y => x + y) (List.map (fun x => w0 * x) xs)
                      (List.map (fun x => w1 * x) ys))
                    (List.map (fun x => w2 * x) zs) =
                    vadd (vadd (vscale w0 xs) (vscale w1 ys)) (vscale w2 zs) from rfl,
                  ih ys zs]
  exact h 0.5 0.3 0.2 t a s

/-- C3: with an encoder that always produces a vector, the batch insert
stores, for every document in order, exactly the elementwise combination
0.5 * v_title + 0.3 * v_abstract + 0.2 * v_summary of the three field
vectors (the summary looked up with empty-string default), paired with the
document id; no renormalization is applied after fusion. -/
theorem C3_weighted_fusion (enc : String → List ℚ)
    (articles : List (Int × String × String))
    (summaries : List (Int × String)) :
    insert_weighted_embeddings (fun t => Except.ok (enc t)) articles
        summaries =
      Except.ok
        (articles.map (fun a =>
          zipW3 (fun x y z => (0.5 : ℚ) * x + (0.3 : ℚ) * y + (0.2 : ℚ) * z)
            (enc a.2.1) (enc a.2.2) (enc (lookupSummary summaries a.1))),
         articles.map (fun a => a.1)) := by
  induction articles with
  | nil => rfl
  | cons a rest ih =>
      simp only [insert_weighted_embeddings, embed_article, ih,
        List.map_cons]
      rw [combine_embeddings_eq_zipW3]

/-- C4 amended behaviour: the batch insert completes without raising
exactly when every document's three field embeddings succeed; a single
embedding fault on any field of any document makes the whole call raise,
so nothing is inserted and no per-document report exists. -/
theorem C4_fault_aborts_whole_batch
    (encode : String → Except String (List ℚ))
    (articles : List (Int × String × String))
    (summaries : List (Int × String)) :
    exceptOk (insert_weighted_embeddings encode articles summaries) =
      articles.all (fun a => exceptOk (embed_article encode summaries a)) := by
  induction articles with
  | nil => rfl
  | cons a rest ih =>
      simp only [insert_weighted_embeddings, List.all_cons]
      cases he : embed_article encode summaries a with
      | error e => rfl
      | ok v =>
          cases hr : insert_weighted_embeddings encode rest summaries with
          | error e => rw [hr] at ih; exact ih
          | ok r => rw [hr] at ih; exact ih

/-- An encoder that faults on the text "bad" and embeds everything else. -/
def encBad : String → Except String (List ℚ) :=
  fun t => if t = "bad" then Except.error "embedding fault" else Except.ok []

/-- A two-document batch whose first document has an unembeddable title. -/
def artsBad : List (Int × String × String) := [(1, "bad", "x"), (2, "t2", "a2")]

/-- Counterexample to C4 as stated: the embedding fault on document 1 makes
insert_weighted_embeddings raise for the whole batch — document 2, which
embeds fine on its own (third conjunct), is not indexed, nothing records
the failed id, and the batch does not continue. -/
theorem C4_counterexample :
    insert_weighted_embeddings encBad artsBad [] =
      Except.error "embedding fault" ∧
    exceptOk (insert_weighted_embeddings encBad artsBad []) = false ∧
    insert_weighted_embeddings encBad [(2, "t2", "a2")] [] =
      Except.ok ([[]], [2]) :=
  ⟨rfl, rfl, rfl⟩

/-- The parallel lists the batch insert builds always have equal length. -/
theorem insert_weighted_embeddings_lengths
    (encode : String → Except String (List ℚ))
    (summaries : List (Int × String)) :
    ∀ (articles : List (Int × String × String)) (embs : List (List ℚ))
      (ids : List Int),
      insert_weighted_embeddings encode articles summaries =
        Except.ok (embs, ids) →
      embs.length = ids.length := by
  intro articles
  induction articles with
  | nil =>
      intro embs ids h
      simp only [insert_weighted_embeddings, Except.ok.injEq,
        Prod.mk.injEq] at h
      rw [← h.1, ← h.2]
      rfl
  | cons a rest ih =>
      intro embs ids h
      simp only [insert_weighted_embeddings] at h
      cases he : embed_article encode summaries a with
      | error e => rw [he] at h; exact Except.noConfusion h
      | ok v =>
          rw [he] at h
          cases hr : insert_weighted_embeddings encode rest summaries with
          | error e => rw [hr] at h; exact Except.noConfusion h
          | ok r =>
              rw [hr] at h
              simp only [Except.ok.injEq, Prod.mk.injEq] at h
              rw [← h.1, ← h.2]
              simp [ih r.1 r.2 (by rw [hr])]

/-- Counting rows by id over a zip of parallel id and vector lists counts
the ids. -/
theorem countP_fst_zip (k : Int) :
    ∀ (ids : List Int) (embs : List (List ℚ)),
      embs.length = ids.length →
      List.countP (fun row => row.1 == k) (ids.zip embs) =
        ids.countP (fun i => i == k) := by
  intro ids
  induction ids with
  | nil => intro embs h; rfl
  | cons i is ih =>
      intro embs h
      cases embs with
      | nil => exact absurd h (by simp)
      | cons v vs =>
          have h2 : vs.length = is.length := by simpa using h
          simp only [List.zip_cons_cons, List.countP_cons, ih vs h2]

/-- C5 amended behaviour: Milvus insert appends; a successful Index run
over a batch extends the stored rows with one row per batch document, so
the number of rows carrying an id grows by its number of occurrences in
the batch — an id already stored and re-indexed is duplicated, never
replaced. -/
theorem C5_insert_appends (encode : String → Except String (List ℚ))
    (articles : List (Int × String × String))
    (summaries : List (Int × String)) (store : List (Int × List ℚ))
    (embs : List (List ℚ)) (ids : List Int) (k : Int)
    (h : insert_weighted_embeddings encode articles summaries =
      Except.ok (embs, ids)) :
    run_index encode articles summaries store =
      Except.ok (store ++ ids.zip embs) ∧
    countKey k (store ++ ids.zip embs) =
      countKey k store + ids.countP (fun i => i == k) := by
  constructor
  · unfold run_index
    rw [h]
    rfl
  · unfold countKey
    rw [List.countP_append,
      countP_fst_zip k ids embs
        (insert_weighted_embeddings_lengths encode summaries articles
          embs ids h)]

/-- An encoder that embeds every text (to the empty vector, which keeps
kernel computation trivial; only ids matter for duplication). -/
def enc5 : String → Except String (List ℚ) := fun _ => Except.ok []

/-- A one-document batch with id 7. -/
def arts5 : List (Int × String × String) := [(7, "t", "a")]

/-- Counterexample to C5 as stated: indexing the batch containing id 7
twice leaves two rows for id 7 in the vector store — the second run
appends instead of replacing, so the store does not hold exactly one
embedding per id. -/
theorem C5_counterexample :
    run_index enc5 arts5 [] [] = Except.ok [(7, [])] ∧
    run_index enc5 arts5 [] [(7, [])] = Except.ok [(7, []), (7, [])] ∧
    countKey 7 [(7, ([] : List ℚ)), (7, [])] = 2 :=
  ⟨rfl, rfl, rfl⟩

/-- Witness for C5's amended statement: re-running the index over the
batch with id 7 against a store already holding id 7 appends the new row,
and the count of id 7 grows from one to two. -/
theorem C5_insert_appends_witness :
    run_index enc5 arts5 [] [(7, [])] =
      Except.ok ([(7, [])] ++ (([7] : List Int).zip ([[]] : List (List ℚ)))) ∧
    countKey 7 ([(7, [])] ++ (([7] : List Int).zip ([[]] : List (List ℚ)))) =
      countKey 7 [(7, [])] + ([7] : List Int).countP (fun i => i == 7) :=
  C5_insert_appends enc5 arts5 [] [(7, [])] [[]] [7] 7 rfl

/-- The validation loop finds no mismatch when every field named
embeddings declares dimension 768. -/
theorem scanFields_no_mismatch :
    ∀ (fs : List FieldM),
      (∀ f ∈ fs, f.name = "embeddings" → f.dim = some 768) →
      scanFields fs = Except.ok false := by
  intro fs
  induction fs with
  | nil => intro h; rfl
  | cons f rest ih =>
      intro h
      cases hb : f.name == "embeddings" with
      | false =>
          simp only [scanFields, hb, Bool.false_eq_true, if_false]
          exact ih (fun g hg => h g (List.mem_cons_of_mem f hg))
      | true =>
          have hd : f.dim = some 768 :=
            h f (List.mem_cons_self f rest) (eq_of_beq hb)
          simp only [scanFields, hb, hd, if_true]
          simp only [ne_eq, not_true_eq_false, if_false]
          exact ih (fun g hg => h g (List.mem_cons_of_mem f hg))

/-- The validation loop reports a mismatch when some field is named
embeddings and every field so named declares a dimension other than
768. -/
theorem scanFields_mismatch :
    ∀ (fs : List FieldM),
      (∃ f ∈ fs, f.name = "embeddings") →
      (∀ f ∈ fs, f.name = "embeddings" → ∃ d, f.dim = some d ∧ d ≠ 768) →
      scanFields fs = Except.ok true := by
  intro fs
  induction fs with
  | nil => intro hex h; exact absurd hex (by simp)
  | cons f rest ih =>
      intro hex h
      cases hb : f.name == "embeddings" with
      | true =>
          obtain ⟨d, hd, hne⟩ :=
            h f (List.mem_cons_self f rest) (eq_of_beq hb)
          simp [scanFields, hb, hd, hne]
      | false =>
          have hex2 : ∃ g ∈ rest, g.name = "embeddings" := by
            obtain ⟨g, hg, hgn⟩ := hex
            cases List.mem_cons.mp hg with
            | inl heq =>
                subst heq
                rw [hgn] at hb
                simp at hb
            | inr h2 => exact ⟨g, h2, hgn⟩
          simp only [scanFields, hb, Bool.false_eq_true, if_false]
          exact ih hex2 (fun g hg => h g (List.mem_cons_of_mem f hg))

/-- C6: the schema lifecycle of connect_to_milvus.  A missing collection
is created with the declared schema (which carries an int64 primary key
and a float-vector field of dimension 768); an existing collection whose
embeddings field declares dimension 768 is kept unchanged and not
dropped; an existing collection whose embeddings fields declare any other
dimension is dropped and recreated with the declared schema — the same
fields as a fresh creation — so indexing proceeds as on a fresh
collection. -/
theorem C6_schema_lifecycle (fs : List FieldM) :
    connect_to_milvus none = Except.ok ⟨schemaFields, false⟩ ∧
    (schemaFields.any fun f => f.is_primary && f.dtype == DTypeM.int64)
      = true ∧
    (schemaFields.any fun f =>
      f.dtype == DTypeM.floatVector && f.dim == some 768) = true ∧
    ((∀ f ∈ fs, f.name = "embeddings" → f.dim = some 768) →
      connect_to_milvus (some fs) = Except.ok ⟨fs, false⟩) ∧
    ((∃ f ∈ fs, f.name = "embeddings") →
      (∀ f ∈ fs, f.name = "embeddings" → ∃ d, f.dim = some d ∧ d ≠ 768) →
      connect_to_milvus (some fs) = Except.ok ⟨schemaFields, true⟩) := by
  refine ⟨rfl, rfl, rfl, fun h => ?_, fun hex h => ?_⟩
  · simp only [connect_to_milvus]
    rw [scanFields_no_mismatch fs h]
  · simp only [connect_to_milvus]
    rw [scanFields_mismatch fs hex h]

/-- An existing collection schema declaring dimension 512. -/
def fields512 : List FieldM :=
  [⟨"embeddings", DTypeM.floatVector, some 512, false⟩,
   ⟨"id", DTypeM.int64, none, true⟩]

/-- Witness for C6: the dim-512 collection is dropped and recreated with
the declared schema, after which validation of the recreated schema
succeeds without a drop. -/
theorem C6_schema_lifecycle_witness :
    connect_to_milvus (some fields512) = Except.ok ⟨schemaFields, true⟩ ∧
    connect_to_milvus (some schemaFields) =
      Except.ok ⟨schemaFields, false⟩ := by
  constructor
  · refine (C6_schema_lifecycle fields512).2.2.2.2 ⟨fields512.head (by decide), by decide, rfl⟩ ?_
    intro f hf hn
    fin_cases hf
    · exact ⟨512, rfl, by decide⟩
    · exact absurd hn (by decide)
  · exact (C6_schema_lifecycle schemaFields).2.2.2.1 (by decide)
